import Mathlib

/-!
Verification of the Kepler-432 orbital lattice core of the cosmic-orrery
repository (`kepler-432.ts`, `cosmic-orrery.ts`).

Numeric model: the TypeScript code computes with IEEE-754 doubles.  We embed
the arithmetic over exact rationals extended with the IEEE special values
`NaN` and signed infinity (`JSNum`), so that the special-value propagation of
the source (division by zero, `Math.pow(0, -1.5)`, products with infinity) is
captured exactly, while finite arithmetic is idealised as exact.  The
transcendental functions `Math.sin`, `Math.cos`, `Math.sqrt` and the
non-integer power used by the harmonic generator have no rational closed
form; they are supplied as an abstract parameter record `JsMath`, with the
properties a theorem needs (for instance `|sin| ≤ 1`) taken as explicit
hypotheses.  `Math.sqrt 0 = 0`, `Math.sqrt` of a negative argument giving
`NaN`, and `Math.pow 0 (-1.5) = +∞` are fixed by the IEEE specification and
are built into the wrappers below.  `Math.PI` is the exact rational value of
the double-precision constant.
-/

/-- IEEE-style extended number: `NaN`, signed infinity, or a finite value
(idealised as an exact rational). -/
inductive JSNum where
  | nan : JSNum
  | inf (pos : Bool) : JSNum
  | fin (q : ℚ) : JSNum
deriving DecidableEq, Repr

namespace JSNum

/-- JS `+` on numbers: `NaN` propagates, opposite infinities give `NaN`. -/
def add : JSNum → JSNum → JSNum
  | nan, _ => nan
  | _, nan => nan
  | inf s, inf t => if s = t then inf s else nan
  | inf s, fin _ => inf s
  | fin _, inf t => inf t
  | fin a, fin b => fin (a + b)

/-- JS `*` on numbers: `NaN` propagates, `±∞ · 0 = NaN`, signs multiply. -/
def mul : JSNum → JSNum → JSNum
  | nan, _ => nan
  | _, nan => nan
  | inf s, inf t => inf (s == t)
  | inf s, fin q => if q = 0 then nan else inf (s == decide (0 < q))
  | fin q, inf s => if q = 0 then nan else inf (s == decide (0 < q))
  | fin a, fin b => fin (a * b)

/-- JS `/` on numbers: `0/0 = NaN`, `q/0 = ±∞` with the sign of `q`
(the denominator zero is `+0`), `q/±∞ = 0`, `±∞/±∞ = NaN`. -/
def div : JSNum → JSNum → JSNum
  | nan, _ => nan
  | _, nan => nan
  | inf _, inf _ => nan
  | inf s, fin q => inf (s == decide (0 ≤ q))
  | fin _, inf _ => fin 0
  | fin a, fin b =>
      if b = 0 then (if a = 0 then nan else inf (decide (0 < a)))
      else fin (a / b)

end JSNum

/-- Exact rational value of the double-precision constant `Math.PI`
(`3.141592653589793` = `884279719003555 · 2⁻⁴⁸`). -/
def jsPI : ℚ := 884279719003555 / 281474976710656

/-- Abstract model of the irrational `Math` functions the lattice uses:
`sin`, `cos`, `sqrt` on positive arguments, and `x ↦ x^(-1.5)` on positive
arguments.  Theorems take the properties they need of these as hypotheses. -/
structure JsMath where
  sin : ℚ → ℚ
  cos : ℚ → ℚ
  sqrt : ℚ → ℚ
  powNeg15 : ℚ → ℚ

/-- `Math.sqrt`: negative argument gives `NaN`, `sqrt 0 = 0` exactly,
positive arguments go to the abstract model. -/
def jsSqrt (m : JsMath) (q : ℚ) : JSNum :=
  if q < 0 then JSNum.nan
  else if q = 0 then JSNum.fin 0
  else JSNum.fin (m.sqrt q)

/-- `Math.pow (·) (-1.5)`: `pow 0 (-1.5) = +∞` (ECMA-262 / IEEE),
a negative base with a non-integer exponent gives `NaN`, positive bases go
to the abstract model. -/
def jsPowNeg15 (m : JsMath) (q : ℚ) : JSNum :=
  if q = 0 then JSNum.inf true
  else if q < 0 then JSNum.nan
  else JSNum.fin (m.powNeg15 q)

/-- A concrete instantiation of the abstract math record, used to evaluate
the embedding on closed inputs. -/
def mZero : JsMath := ⟨fun _ => 0, fun _ => 0, fun _ => 0, fun _ => 0⟩

/-- A second concrete instantiation (identity square root), used where a
nonzero distance is wanted. -/
def mId : JsMath := ⟨fun _ => 0, fun _ => 0, fun q => q, fun _ => 0⟩

/-! ## HashDecoder (`hashToBuffer`) -/

/-- `ECMA StrWhiteSpaceChar` (the characters `parseInt` skips): ASCII
whitespace, the line terminators, and the Unicode space separators. -/
def isJsSpace (c : Char) : Bool :=
  c == ' ' || c == '\t' || c.toNat == 10 || c.toNat == 11 || c.toNat == 12 ||
  c.toNat == 13 || c.toNat == 0xa0 || c.toNat == 0x1680 ||
  (0x2000 <= c.toNat && c.toNat <= 0x200a) || c.toNat == 0x2028 ||
  c.toNat == 0x2029 || c.toNat == 0x202f || c.toNat == 0x205f ||
  c.toNat == 0x3000 || c.toNat == 0xfeff

/-- Value of a hexadecimal digit, `none` for a non-digit. -/
def hexVal (c : Char) : Option ℕ :=
  if '0' ≤ c ∧ c ≤ '9' then some (c.toNat - '0'.toNat)
  else if 'a' ≤ c ∧ c ≤ 'f' then some (c.toNat - 'a'.toNat + 10)
  else if 'A' ≤ c ∧ c ≤ 'F' then some (c.toNat - 'A'.toNat + 10)
  else none

/-- Unsigned part of `parseInt(s, 16)`: skip an optional `0x`/`0X`, read the
longest run of hex digits; `none` (`NaN`) when that run is empty. -/
def parseHexBody (s : List Char) : Option ℕ :=
  let s := if s.take 2 = ['0', 'x'] ∨ s.take 2 = ['0', 'X'] then s.drop 2 else s
  let ds := s.takeWhile (fun c => (hexVal c).isSome)
  if ds.isEmpty then none
  else some (ds.foldl (fun acc c => 16 * acc + ((hexVal c).getD 0)) 0)

/-- JS `parseInt(s, 16)`: leading whitespace, optional sign, then the longest
hex-digit run; `none` models `NaN`. -/
def parseIntHex (s : List Char) : Option ℤ :=
  let s := s.dropWhile isJsSpace
  match s with
  | '-' :: rest => (parseHexBody rest).map (fun n => -(n : ℤ))
  | '+' :: rest => (parseHexBody rest).map (fun n => (n : ℤ))
  | rest => (parseHexBody rest).map (fun n => (n : ℤ))

/-- `hash.replace(/^(bafkrei|Qm|phash:)/, '')`: strip the first matching
known head, trying the alternatives in the regex's order. -/
def stripKnownHead (s : List Char) : List Char :=
  if s.take 7 = "bafkrei".toList then s.drop 7
  else if s.take 2 = "Qm".toList then s.drop 2
  else if s.take 6 = "phash:".toList then s.drop 6
  else s

/-- One stored byte: `parseInt(pair, 16) || 0` followed by the `Uint8Array`
coercion (modulo `256`, non-negative). -/
def pairByte (pair : List Char) : ℕ :=
  match parseIntHex pair with
  | none => 0
  | some z => (z % 256).toNat

/-- Byte `j` written by the decoding loop: the pair starting at character
`2·j` of the cleaned string (a lone final character forms a 1-character
pair). -/
def byteAt (clean : List Char) (j : ℕ) : ℕ :=
  pairByte ((clean.drop (2 * j)).take 2)

/-- `hashToBuffer`: strip a known head, then for `i = 0, 2, …` below
`min (length, 64)` store `parseInt(pair, 16) || 0` at index `i/2`; the other
bytes of the 32-byte buffer stay `0`. -/
def hashToBuffer (hash : String) : List ℕ :=
  let clean := stripKnownHead hash.toList
  let n := min clean.length 64
  (List.range 32).map (fun j => if 2 * j < n then byteAt clean j else 0)

/-- `DataView.getUint32(off, true)`: four bytes, little endian. -/
def getUint32LE (bytes : List ℕ) (off : ℕ) : ℕ :=
  bytes.getD off 0 + 256 * bytes.getD (off + 1) 0 +
    65536 * bytes.getD (off + 2) 0 + 16777216 * bytes.getD (off + 3) 0

/-! ## OrbitalMapper (`hashToOrbit`, `sphericalToOrbital`) -/

/-- The `OrbitalCoordinates` record of `kepler-432.ts`.  Fields the program
only ever fills with finite values are exact rationals; `period` and
`velocity`, which the source can drive to `NaN`, are `JSNum`. -/
structure OrbitalCoordinates where
  r : ℚ
  theta : ℚ
  phi : ℚ
  x : ℚ
  y : ℚ
  z : ℚ
  period : JSNum
  velocity : JSNum
  eccentricity : ℚ
deriving DecidableEq, Repr

/-- Truncation toward zero, as the JS `%` operator truncates. -/
def truncQ (q : ℚ) : ℤ := if 0 ≤ q then ⌊q⌋ else ⌈q⌉

/-- JS `%` on finite numbers: `n - d · trunc (n / d)` (the result keeps the
sign of the dividend). -/
def jsFmod (n d : ℚ) : ℚ := n - d * (truncQ (n / d) : ℚ)

/-- `Kepler432Lattice.hashToOrbit`: decode the hash, extract the four words,
reduce them into ranges, and derive period, velocity and the Cartesian
position. -/
def hashToOrbit (m : JsMath) (hash : String) : OrbitalCoordinates :=
  let B := hashToBuffer hash
  let r : ℚ := ((getUint32LE B 0 % 1000 : ℕ) : ℚ) / 1000
  let theta : ℚ := (((getUint32LE B 4 % 10000 : ℕ) : ℚ) / 10000) * 2 * jsPI
  let phi : ℚ := (((getUint32LE B 8 % 10000 : ℕ) : ℚ) / 10000) * 2 * jsPI
  let eccentricity : ℚ := (((getUint32LE B 12 % 100 : ℕ) : ℚ) / 100) * (1 / 2)
  let period : JSNum := JSNum.mul (jsSqrt m (r ^ 3)) (JSNum.fin 432)
  let velocity : JSNum := JSNum.div (JSNum.fin (2 * jsPI * r)) period
  { r := r, theta := theta, phi := phi
    x := r * m.sin phi * m.cos theta
    y := r * m.sin phi * m.sin theta
    z := r * m.cos phi
    period := period, velocity := velocity
    eccentricity := eccentricity }

/-- `Kepler432Lattice.sphericalToOrbital`: the synthetic-coordinates entry
point used by the Lagrange computation; angles go through JS `%`,
eccentricity is forced to `0`. -/
def sphericalToOrbital (m : JsMath) (r theta phi : ℚ) : OrbitalCoordinates :=
  let period : JSNum := JSNum.mul (jsSqrt m (r ^ 3)) (JSNum.fin 432)
  { r := r
    theta := jsFmod theta (2 * jsPI)
    phi := jsFmod phi (2 * jsPI)
    x := r * m.sin phi * m.cos theta
    y := r * m.sin phi * m.sin theta
    z := r * m.cos phi
    period := period
    velocity := JSNum.div (JSNum.fin (2 * jsPI * r)) period
    eccentricity := 0 }

/-! ## HarmonicGenerator (`orbitalHarmonics`) -/

/-- One frequency of `orbitalHarmonics`:
`432 · eigen · (1/(1+r)) · (1 + sin(θ+i)·cos(φ+i)·0.1) · r^(-1.5)`,
multiplied left to right as in the source. -/
def harmonicFreq (m : JsMath) (c : OrbitalCoordinates) (i : ℕ) (eigen : ℚ) :
    JSNum :=
  let radiusScale : JSNum := JSNum.div (JSNum.fin 1) (JSNum.fin (1 + c.r))
  let orbitalModifier : ℚ := m.sin (c.theta + i) * m.cos (c.phi + i)
  JSNum.mul
    (JSNum.mul
      (JSNum.mul (JSNum.mul (JSNum.fin 432) (JSNum.fin eigen)) radiusScale)
      (JSNum.fin (1 + orbitalModifier * (1 / 10))))
    (jsPowNeg15 m c.r)

/-- The indexed map of `eigenvalues.map((eigen, i) => …)`. -/
def harmonicsFrom (m : JsMath) (c : OrbitalCoordinates) :
    ℕ → List ℚ → List JSNum
  | _, [] => []
  | i, e :: rest => harmonicFreq m c i e :: harmonicsFrom m c (i + 1) rest

/-- `Kepler432Lattice.orbitalHarmonics`. -/
def orbitalHarmonics (m : JsMath) (c : OrbitalCoordinates)
    (eigenvalues : List ℚ) : List JSNum :=
  harmonicsFrom m c 0 eigenvalues

/-! ## ColorClassifier (`orbitalColor`) -/

/-- RGB triple on the 0–1 scale (`THREE.Color`). -/
structure Color where
  red : ℚ
  green : ℚ
  blue : ℚ
deriving DecidableEq, Repr

/-- `Kepler432Lattice.orbitalColor`: five half-open radius bands. -/
def orbitalColor (c : OrbitalCoordinates) : Color :=
  if c.r < 1 / 5 then ⟨7 / 10, 7 / 10, 1⟩
  else if c.r < 2 / 5 then ⟨1, 1, 1⟩
  else if c.r < 3 / 5 then ⟨1, 1, 7 / 10⟩
  else if c.r < 4 / 5 then ⟨1, 7 / 10, 2 / 5⟩
  else ⟨1, 2 / 5, 2 / 5⟩

/-! ## CelestialBodyFactory (`createCelestialBody`) -/

/-- The `CelestialBody` record.  `luminosity` is `JSNum` because the source
divides by `eigenvalues.length`, which is `0/0 = NaN` for an empty list. -/
structure CelestialBody where
  cid : String
  soul : String
  coordinates : OrbitalCoordinates
  harmonics : List ℚ
  luminosity : JSNum
  color : Color
  melody : List JSNum
deriving DecidableEq, Repr

/-- `Kepler432Lattice.createCelestialBody`: derive coordinates, melody and
color, store the eigenvalues verbatim as `harmonics`, and set
`luminosity = 1 / (1 + mean(eigenvalues))` where the mean is the JS
computation `reduce((a,b) => a+b, 0) / length`. -/
def createCelestialBody (m : JsMath) (cid proteinHash : String)
    (eigenvalues : List ℚ) : CelestialBody :=
  let coordinates := hashToOrbit m proteinHash
  let melody := orbitalHarmonics m coordinates eigenvalues
  let complexity : JSNum :=
    JSNum.div (JSNum.fin eigenvalues.sum)
      (JSNum.fin (eigenvalues.length : ℚ))
  { cid := cid
    soul := proteinHash
    coordinates := coordinates
    harmonics := eigenvalues
    luminosity := JSNum.div (JSNum.fin 1) (JSNum.add (JSNum.fin 1) complexity)
    color := orbitalColor coordinates
    melody := melody }

/-! ## GravityEngine (`gravitationalPull`, `findLagrangePoints`) -/

/-- `THREE.Vector3.distanceTo` of the two Cartesian positions:
`√(Δx² + Δy² + Δz²)`. -/
def bodyDistance (m : JsMath) (a b : CelestialBody) : JSNum :=
  jsSqrt m ((a.coordinates.x - b.coordinates.x) ^ 2 +
    (a.coordinates.y - b.coordinates.y) ^ 2 +
    (a.coordinates.z - b.coordinates.z) ^ 2)

/-- `Kepler432Lattice.gravitationalPull`: `Infinity` at computed distance
`0`, otherwise `(G · m₁ · m₂) / d²` with `G = 1` and luminosity as mass. -/
def gravitationalPull (m : JsMath) (a b : CelestialBody) : JSNum :=
  let d := bodyDistance m a b
  if d = JSNum.fin 0 then JSNum.inf true
  else
    JSNum.div (JSNum.mul (JSNum.mul (JSNum.fin 1) a.luminosity) b.luminosity)
      (JSNum.mul d d)

/-- `Kepler432Lattice.findLagrangePoints`: the five synthetic points built
from the primary's `(r, θ, φ)` through `sphericalToOrbital`. -/
def findLagrangePoints (m : JsMath) (primaryBody : CelestialBody) :
    List OrbitalCoordinates :=
  let r := primaryBody.coordinates.r
  let theta := primaryBody.coordinates.theta
  let phi := primaryBody.coordinates.phi
  [sphericalToOrbital m (r * (9 / 10)) theta phi,
   sphericalToOrbital m (r * (11 / 10)) theta phi,
   sphericalToOrbital m r (theta + jsPI) phi,
   sphericalToOrbital m r (theta + jsPI / 3) phi,
   sphericalToOrbital m r (theta - jsPI / 3) phi]

/-! ## Export / import (`CosmicOrrery.exportState` / `importState`) -/

/-- One entry of the exported state: exactly the fields `exportState`
serialises per body. -/
structure ExportEntry where
  cid : String
  soul : String
  coordinates : OrbitalCoordinates
  harmonics : List ℚ
  luminosity : JSNum
deriving DecidableEq, Repr

/-- The per-body projection `exportState` applies. -/
def exportBody (b : CelestialBody) : ExportEntry :=
  ⟨b.cid, b.soul, b.coordinates, b.harmonics, b.luminosity⟩

/-- The per-entry reconstruction `importState` performs: a fresh
`createCelestialBody` from `(cid, soul, harmonics)`, ignoring the stored
coordinates and luminosity. -/
def importBody (m : JsMath) (e : ExportEntry) : CelestialBody :=
  createCelestialBody m e.cid e.soul e.harmonics

/-- The 64-character all-zero hex hash of spec test Vector 1. -/
def zeroHash64 : String :=
  "0000000000000000000000000000000000000000000000000000000000000000"

/-- All-zero coordinates, used as a `getD` default. -/
def originCoordinates : OrbitalCoordinates :=
  ⟨0, 0, 0, 0, 0, 0, JSNum.fin 0, JSNum.fin 0, 0⟩

/-! ## Spec-side decoder for the amended C4 claim -/

/-- Split a character list into consecutive pairs; a lone final character
forms a 1-character chunk. -/
def chunkPairs : List Char → List (List Char)
  | [] => []
  | [c] => [[c]]
  | a :: b :: rest => [a, b] :: chunkPairs rest

/-- Decoder written to the amended specification sentence: strip the first
matching known head, truncate to 64 characters, decode each consecutive
pair with `parseInt(·, 16) || 0` (so a pair decodes to the value of its
longest parseable hex prefix, reduced modulo 256), and zero-pad the result
to 32 bytes. -/
def decodeSpec (hash : String) : List ℕ :=
  let clean := stripKnownHead hash.toList
  let bs := (chunkPairs (clean.take 64)).map pairByte
  bs ++ List.replicate (32 - bs.length) 0

theorem chunkPairs_length (l : List Char) :
    (chunkPairs l).length = (l.length + 1) / 2 := by
  induction l using chunkPairs.induct with
  | case1 => simp [chunkPairs]
  | case2 c => simp [chunkPairs]
  | case3 a b rest ih =>
      simp only [chunkPairs, List.length_cons, ih]
      omega

theorem chunkPairs_get (j : ℕ) :
    ∀ (l : List Char) (h : j < (chunkPairs l).length),
      (chunkPairs l).get ⟨j, h⟩ = (l.drop (2 * j)).take 2 := by
  induction j with
  | zero =>
      intro l h
      match l with
      | [] => simp [chunkPairs] at h
      | [c] => simp [chunkPairs]
      | a :: b :: rest => simp [chunkPairs]
  | succ j ih =>
      intro l h
      match l with
      | [] => simp [chunkPairs] at h
      | [c] => simp [chunkPairs] at h
      | a :: b :: rest =>
          have h' : j < (chunkPairs rest).length := by
            simpa [chunkPairs] using h
          have := ih rest h'
          simp only [chunkPairs, List.get_cons_succ, this]
          have : 2 * (j + 1) = 2 * j + 1 + 1 := by omega
          simp [this]

theorem decode_core (l : List Char) :
    (List.range 32).map (fun j => if 2 * j < min l.length 64 then byteAt l j else 0)
      = (chunkPairs (l.take 64)).map pairByte ++
        List.replicate (32 - ((chunkPairs (l.take 64)).map pairByte).length) 0 := by
  have htlen : (l.take 64).length = min 64 l.length := List.length_take 64 l
  have hbslen : ((chunkPairs (l.take 64)).map pairByte).length
      = (min 64 l.length + 1) / 2 := by
    rw [List.length_map, chunkPairs_length, htlen]
  apply List.ext_getElem
  · simp only [List.length_map, List.length_range, List.length_append,
      List.length_replicate]
    rw [chunkPairs_length, htlen]
    omega
  · intro i h1 h2
    have hi32 : i < 32 := by simpa using h1
    rw [List.getElem_map, List.getElem_range]
    by_cases hib : i < ((chunkPairs (l.take 64)).map pairByte).length
    · rw [List.getElem_append_left hib, List.getElem_map]
      have hci : i < (chunkPairs (l.take 64)).length := by
        simpa using hib
      have hcg := chunkPairs_get i (l.take 64) hci
      rw [List.get_eq_getElem] at hcg
      have hpair : ((l.take 64).drop (2 * i)).take 2 = (l.drop (2 * i)).take 2 := by
        rw [List.drop_take, List.take_take]
        have : min 2 (64 - 2 * i) = 2 := by omega
        rw [this]
      have hcond : 2 * i < min l.length 64 := by omega
      rw [hcg, hpair, if_pos hcond]
      rfl
    · rw [List.getElem_append_right (Nat.le_of_not_lt hib), List.getElem_replicate]
      have hcond : ¬ 2 * i < min l.length 64 := by omega
      rw [if_neg hcond]

/-- C4 (amended): the decoder is total; it strips the first matching head
among `bafkrei`, `Qm`, `phash:`, truncates to 64 characters, decodes each
consecutive pair with JS `parseInt(·, 16) || 0` — the value of the longest
parseable hex prefix, reduced modulo 256 — zero-fills the remainder of the
32-byte buffer, and the buffer is read as little-endian 32-bit words. -/
theorem hashToBuffer_eq_decodeSpec (hash : String) :
    hashToBuffer hash = decodeSpec hash ∧ (hashToBuffer hash).length = 32 := by
  constructor
  · simpa only [hashToBuffer, decodeSpec] using
      decode_core (stripKnownHead hash.toList)
  · simp [hashToBuffer]

/-! ## Claim theorems -/

/-- C4 counterexample: `"1z"` is not a hex pair (`'z'` is not a hex digit),
yet it decodes to byte `1`, because JS `parseInt` parses the longest hex
prefix; the claim's "any pair that does not parse as hex decodes to byte 0"
predicts word `0` for this input, but the first little-endian word is `1`. -/
theorem pair_1z_decodes_nonzero :
    hexVal 'z' = none ∧ getUint32LE (hashToBuffer "1z") 0 = 1 ∧ (1 : ℕ) ≠ 0 := by
  decide

/-- C1: at the 64-zero-hex hash the decoded first word gives `r = 0`; the
period is exactly `0`, but the velocity the code computes is
`(2π·0)/0 = 0/0 = NaN`, not the `0` the claim states. -/
theorem zeroHash_period_zero_velocity_nan (m : JsMath) :
    (hashToOrbit m zeroHash64).r = 0 ∧
    (hashToOrbit m zeroHash64).period = JSNum.fin 0 ∧
    (hashToOrbit m zeroHash64).velocity = JSNum.nan := by
  have zw0 : getUint32LE (hashToBuffer zeroHash64) 0 = 0 := by decide
  refine ⟨?_, ?_, ?_⟩ <;>
    simp [hashToOrbit, zw0, jsSqrt, JSNum.mul, JSNum.div]

/-- C3: `createCelestialBody` never rejects any input; on the empty
eigenvalue sequence it does not fail with `InvalidInput` but silently
returns a body whose luminosity is `1/(1 + 0/0) = NaN`. -/
theorem createCelestialBody_empty_never_rejects (m : JsMath)
    (cid hash : String) :
    (createCelestialBody m cid hash []).luminosity = JSNum.nan ∧
    (createCelestialBody m cid hash []).harmonics = [] ∧
    (createCelestialBody m cid hash []).melody = [] := by
  refine ⟨?_, ?_, ?_⟩ <;>
    simp [createCelestialBody, orbitalHarmonics, harmonicsFrom,
      JSNum.div, JSNum.add]

/-- C5: exporting a constructed body and importing the exported entry
reproduces the body field for field: the import path re-runs
`createCelestialBody` on `(cid, soul, harmonics)`, the harmonics field
stores the input eigenvalues verbatim, and the transform is pure. -/
theorem export_import_roundtrip (m : JsMath) (cid soul : String)
    (eig : List ℚ) :
    importBody m (exportBody (createCelestialBody m cid soul eig)) =
      createCelestialBody m cid soul eig :=
  rfl

theorem jsPI_pos : 0 < jsPI := by norm_num [jsPI]

theorem modCast_div_nonneg (w k : ℕ) : 0 ≤ ((w % k : ℕ) : ℚ) / (k : ℚ) := by
  positivity

theorem modCast_div_lt_one (w k : ℕ) (hk : 0 < k) :
    ((w % k : ℕ) : ℚ) / (k : ℚ) < 1 := by
  rw [div_lt_one (by exact_mod_cast hk)]
  exact_mod_cast Nat.mod_lt w hk

/-- C6: for every hash the produced coordinates satisfy `r ∈ [0,1)`,
`theta ∈ [0,2π)`, `phi ∈ [0,2π)` and `eccentricity ∈ [0,0.5)`. -/
theorem hashToOrbit_range_invariants (m : JsMath) (hash : String) :
    0 ≤ (hashToOrbit m hash).r ∧ (hashToOrbit m hash).r < 1 ∧
    0 ≤ (hashToOrbit m hash).theta ∧
    (hashToOrbit m hash).theta < 2 * jsPI ∧
    0 ≤ (hashToOrbit m hash).phi ∧ (hashToOrbit m hash).phi < 2 * jsPI ∧
    0 ≤ (hashToOrbit m hash).eccentricity ∧
    (hashToOrbit m hash).eccentricity < 1 / 2 := by
  have hr0 := modCast_div_nonneg (getUint32LE (hashToBuffer hash) 0) 1000
  have hr1 := modCast_div_lt_one (getUint32LE (hashToBuffer hash) 0) 1000
    (by norm_num)
  have ht0 := modCast_div_nonneg (getUint32LE (hashToBuffer hash) 4) 10000
  have ht1 := modCast_div_lt_one (getUint32LE (hashToBuffer hash) 4) 10000
    (by norm_num)
  have hp0 := modCast_div_nonneg (getUint32LE (hashToBuffer hash) 8) 10000
  have hp1 := modCast_div_lt_one (getUint32LE (hashToBuffer hash) 8) 10000
    (by norm_num)
  have he0 := modCast_div_nonneg (getUint32LE (hashToBuffer hash) 12) 100
  have he1 := modCast_div_lt_one (getUint32LE (hashToBuffer hash) 12) 100
    (by norm_num)
  have hpi := jsPI_pos
  simp only [hashToOrbit]
  refine ⟨hr0, hr1, ?_, ?_, ?_, ?_, ?_, ?_⟩
  · positivity
  · nlinarith
  · positivity
  · nlinarith
  · positivity
  · nlinarith

theorem harmonicFreq_pos_inf (m : JsMath) (c : OrbitalCoordinates)
    (hr : c.r = 0) (i : ℕ) (e : ℚ) (he : 0 < e)
    (hsin : ∀ x, |m.sin x| ≤ 1) (hcos : ∀ x, |m.cos x| ≤ 1) :
    harmonicFreq m c i e = JSNum.inf true := by
  have habs : |m.sin (c.theta + i) * m.cos (c.phi + i)| ≤ 1 := by
    rw [abs_mul]
    exact mul_le_one₀ (hsin _) (abs_nonneg _) (hcos _)
  have hmod : -1 ≤ m.sin (c.theta + i) * m.cos (c.phi + i) :=
    (abs_le.mp habs).1
  have hq : (0:ℚ) <
      432 * e * (1 + m.sin (c.theta + i) * m.cos (c.phi + i) * (1 / 10)) := by
    nlinarith
  simp only [harmonicFreq, hr, jsPowNeg15, JSNum.div, JSNum.mul]
  norm_num
  rw [if_neg, decide_eq_true hq]
  rintro (h | h)
  · exact he.ne' h
  · nlinarith

/-- C2: the harmonic generator has no clamp: at `r = 0` the Kepler factor
`r^(-1.5)` is `+∞` and, for the Vector-2 eigenvalues, all four returned
frequencies are positive infinity — not the four finite frequencies the
claim states. -/
theorem harmonics_at_r_zero_diverge (m : JsMath) (c : OrbitalCoordinates)
    (hr : c.r = 0)
    (hsin : ∀ x, |m.sin x| ≤ 1) (hcos : ∀ x, |m.cos x| ≤ 1) :
    orbitalHarmonics m c [1, 1 / 2, 1 / 4, 1 / 8] =
      [JSNum.inf true, JSNum.inf true, JSNum.inf true, JSNum.inf true] := by
  show harmonicsFrom m c 0 _ = _
  simp only [harmonicsFrom]
  rw [harmonicFreq_pos_inf m c hr 0 1 (by norm_num) hsin hcos,
    harmonicFreq_pos_inf m c hr 1 (1 / 2) (by norm_num) hsin hcos,
    harmonicFreq_pos_inf m c hr 2 (1 / 4) (by norm_num) hsin hcos,
    harmonicFreq_pos_inf m c hr 3 (1 / 8) (by norm_num) hsin hcos]

theorem zeroHash_word0 : getUint32LE (hashToBuffer zeroHash64) 0 = 0 := by
  decide

/-- Witness for `harmonics_at_r_zero_diverge` at the Vector-1 coordinates
under a concrete math model. -/
theorem harmonics_at_r_zero_diverge_witness :
    orbitalHarmonics mZero (hashToOrbit mZero zeroHash64) [1, 1/2, 1/4, 1/8] =
      [JSNum.inf true, JSNum.inf true, JSNum.inf true, JSNum.inf true] :=
  harmonics_at_r_zero_diverge mZero (hashToOrbit mZero zeroHash64)
    (by simp [hashToOrbit, zeroHash_word0])
    (fun x => by norm_num [mZero]) (fun x => by norm_num [mZero])

theorem jsMul_one_left (x : JSNum) : JSNum.mul (JSNum.fin 1) x = x := by
  cases x with
  | nan => rfl
  | inf s => cases s <;> simp [JSNum.mul]
  | fin q => simp [JSNum.mul]

theorem jsMul_comm (a b : JSNum) : JSNum.mul a b = JSNum.mul b a := by
  cases a <;> cases b <;> simp [JSNum.mul, Bool.beq_comm, mul_comm]

theorem bodyDistance_comm (m : JsMath) (a b : CelestialBody) :
    bodyDistance m a b = bodyDistance m b a := by
  unfold bodyDistance
  congr 1
  ring

def bodyA : CelestialBody :=
  ⟨"a", "", originCoordinates, [1], JSNum.fin 1, ⟨1, 1, 1⟩, []⟩

def bodyB : CelestialBody :=
  ⟨"b", "", { originCoordinates with x := 1 }, [1], JSNum.fin 1, ⟨1, 1, 1⟩, []⟩

/-- C7: `gravitationalPull` is symmetric; on coincident positions (in
particular `pull(a,a)`) the computed distance is `0` and the result is the
positive-infinity sentinel; otherwise it is
`G·luminosity(a)·luminosity(b)/distance²` with `G = 1`. -/
theorem gravitationalPull_spec (m : JsMath) (a b : CelestialBody) :
    gravitationalPull m a b = gravitationalPull m b a ∧
    gravitationalPull m a a = JSNum.inf true ∧
    (bodyDistance m a b = JSNum.fin 0 →
      gravitationalPull m a b = JSNum.inf true) ∧
    (bodyDistance m a b ≠ JSNum.fin 0 →
      gravitationalPull m a b =
        JSNum.div
          (JSNum.mul (JSNum.mul (JSNum.fin 1) a.luminosity) b.luminosity)
          (JSNum.mul (bodyDistance m a b) (bodyDistance m a b))) := by
  refine ⟨?_, ?_, ?_, ?_⟩
  · unfold gravitationalPull
    rw [bodyDistance_comm m a b, jsMul_one_left, jsMul_one_left,
      jsMul_comm a.luminosity b.luminosity]
  · unfold gravitationalPull
    have hd : bodyDistance m a a = JSNum.fin 0 := by
      simp [bodyDistance, jsSqrt]
    rw [hd]
    simp
  · intro h
    unfold gravitationalPull
    rw [h]
    simp
  · intro h
    unfold gravitationalPull
    rw [if_neg h]

/-- Witness for `gravitationalPull_spec`: two concrete bodies at distance
`1`. -/
theorem gravitationalPull_spec_witness :
    gravitationalPull mId bodyA bodyB =
      JSNum.div
        (JSNum.mul (JSNum.mul (JSNum.fin 1) bodyA.luminosity) bodyB.luminosity)
        (JSNum.mul (bodyDistance mId bodyA bodyB) (bodyDistance mId bodyA bodyB)) :=
  (gravitationalPull_spec mId bodyA bodyB).2.2.2 (by
    norm_num [bodyDistance, bodyA, bodyB, originCoordinates, jsSqrt, mId])

/-- The Vector-3 primary: `r = 0.4`, `theta = 1.0`. -/
def primaryV3 : CelestialBody :=
  ⟨"p", "", { originCoordinates with r := 2 / 5, theta := 1 }, [1],
    JSNum.fin 1, ⟨1, 1, 1⟩, []⟩

/-- C8 counterexample: at the Vector-3 primary the code's L5 theta is
`1 − π/3`, a negative number — the JS `%` keeps the dividend's sign, so the
angle is not reduced into `[0, 2π)` as "reduced modulo 2π" asserts. -/
theorem lagrange_L5_theta_negative :
    ((findLagrangePoints mZero primaryV3).getD 4 originCoordinates).theta =
      1 - jsPI / 3 ∧ (1 - jsPI / 3 : ℚ) < 0 := by
  constructor
  · simp only [findLagrangePoints, primaryV3, originCoordinates,
      sphericalToOrbital, List.getD]
    norm_num [jsFmod, truncQ, jsPI]
  · norm_num [jsPI]

/-- C8 (amended): `findLagrangePoints` returns exactly 5 points with
eccentricity 0; angles pass through the JS truncated remainder `% 2π`
(which keeps the dividend's sign instead of reducing into `[0, 2π)`); for
the Vector-3 primary the radii are exactly `0.36, 0.44, 0.4, 0.4, 0.4` and
the thetas exactly `1, 1, 1+π, 1+π/3, 1−π/3`, the last one negative. -/
theorem findLagrangePoints_spec (m : JsMath) (p : CelestialBody) :
    (findLagrangePoints m p).length = 5 ∧
    (∀ q ∈ findLagrangePoints m p, q.eccentricity = 0) ∧
    (p.coordinates.r = 2 / 5 → p.coordinates.theta = 1 →
      (findLagrangePoints m p).map OrbitalCoordinates.r =
        [9 / 25, 11 / 25, 2 / 5, 2 / 5, 2 / 5] ∧
      (findLagrangePoints m p).map OrbitalCoordinates.theta =
        [1, 1, 1 + jsPI, 1 + jsPI / 3, 1 - jsPI / 3]) := by
  refine ⟨by simp [findLagrangePoints], ?_, ?_⟩
  · intro q hq
    simp only [findLagrangePoints, List.mem_cons, List.not_mem_nil,
      or_false] at hq
    rcases hq with rfl | rfl | rfl | rfl | rfl <;> rfl
  · intro hr ht
    simp only [findLagrangePoints, sphericalToOrbital, List.map_cons,
      List.map_nil, hr, ht]
    constructor
    · norm_num
    · norm_num [jsFmod, truncQ, jsPI]

/-- Witness for `findLagrangePoints_spec` at the Vector-3 primary. -/
theorem findLagrangePoints_spec_witness :
    (findLagrangePoints mZero primaryV3).map OrbitalCoordinates.r =
      [9 / 25, 11 / 25, 2 / 5, 2 / 5, 2 / 5] :=
  ((findLagrangePoints_spec mZero primaryV3).2.2 rfl rfl).1

/-- C9 counterexample: the eigenvalue sequence `[-2]` is non-empty, yet the
resulting luminosity is `1/(1 + (-2)) = -1`, outside `(0, 1]`. -/
theorem luminosity_negative_eigenvalue :
    (createCelestialBody mZero "c" "h" [-2]).luminosity = JSNum.fin (-1) ∧
    ¬ (0 : ℚ) < -1 := by
  constructor
  · simp [createCelestialBody, JSNum.div, JSNum.add]
    norm_num
  · norm_num

/-- The indexed harmonic map preserves length. -/
theorem harmonicsFrom_length (m : JsMath) (c : OrbitalCoordinates) :
    ∀ (i : ℕ) (l : List ℚ), (harmonicsFrom m c i l).length = l.length := by
  intro i l
  induction l generalizing i with
  | nil => rfl
  | cons e rest ih => simp [harmonicsFrom, ih]

/-- C9 (amended): for every hash and every non-empty eigenvalue sequence
the factory stores the eigenvalues verbatim, produces a melody of the same
length as the harmonics, and sets the luminosity to the JS computation
`1 / (1 + mean(harmonics))` — the division of `1` by the exact value
`1 + mean` (so `mean = -1` yields `+∞`); whenever every eigenvalue is
non-negative the luminosity is the finite value `1/(1 + mean)` and lies in
`(0, 1]`. -/
theorem createCelestialBody_invariants (m : JsMath) (cid hash : String)
    (eig : List ℚ) (hne : eig ≠ []) :
    (createCelestialBody m cid hash eig).harmonics = eig ∧
    (createCelestialBody m cid hash eig).melody.length = eig.length ∧
    (createCelestialBody m cid hash eig).luminosity =
      JSNum.div (JSNum.fin 1) (JSNum.fin (1 + eig.sum / (eig.length : ℚ))) ∧
    ((∀ e ∈ eig, 0 ≤ e) →
      (createCelestialBody m cid hash eig).luminosity =
        JSNum.fin (1 / (1 + eig.sum / (eig.length : ℚ))) ∧
      0 < 1 / (1 + eig.sum / (eig.length : ℚ)) ∧
      1 / (1 + eig.sum / (eig.length : ℚ)) ≤ 1) := by
  have hlen : (0 : ℚ) < (eig.length : ℚ) := by
    have : 0 < eig.length := List.length_pos.mpr hne
    exact_mod_cast this
  have hlum : (createCelestialBody m cid hash eig).luminosity =
      JSNum.div (JSNum.fin 1) (JSNum.fin (1 + eig.sum / (eig.length : ℚ))) := by
    simp only [createCelestialBody, JSNum.div, JSNum.add]
    rw [if_neg hlen.ne']
  refine ⟨rfl, harmonicsFrom_length m _ 0 eig, hlum, fun hnn => ?_⟩
  have hsum : (0 : ℚ) ≤ eig.sum := List.sum_nonneg hnn
  have hmean : (0 : ℚ) ≤ eig.sum / (eig.length : ℚ) := by positivity
  have hden : (0 : ℚ) < 1 + eig.sum / (eig.length : ℚ) := by linarith
  refine ⟨?_, ?_, ?_⟩
  · rw [hlum]
    simp only [JSNum.div]
    rw [if_neg hden.ne']
  · positivity
  · rw [div_le_one hden]
    linarith

/-- Witness for `createCelestialBody_invariants` at eigenvalues `[1]`. -/
theorem createCelestialBody_invariants_witness :
    (createCelestialBody mZero "c" "h" [(1 : ℚ)]).luminosity =
      JSNum.fin (1 / (1 + List.sum [(1 : ℚ)] / (List.length [(1 : ℚ)] : ℚ))) :=
  ((createCelestialBody_invariants mZero "c" "h" [1] (by simp)).2.2.2
    (by norm_num)).1

/-- C10: the outer (L2) Lagrange point's radius is exactly `1.1 · r` for
every primary — never clamped — so a primary with `r > 10/11` produces a
coordinate with `r ≥ 1`, outside the `[0, 1)` range of the data model. -/
theorem lagrange_L2_radius_unclamped (m : JsMath) (p : CelestialBody) :
    ((findLagrangePoints m p).getD 1 originCoordinates).r =
      p.coordinates.r * (11 / 10) ∧
    (10 / 11 < p.coordinates.r →
      1 ≤ ((findLagrangePoints m p).getD 1 originCoordinates).r) := by
  have hr : ((findLagrangePoints m p).getD 1 originCoordinates).r =
      p.coordinates.r * (11 / 10) := by
    simp [findLagrangePoints, sphericalToOrbital]
  refine ⟨hr, fun h => ?_⟩
  rw [hr]
  nlinarith

/-- A primary with `r = 0.95 > 10/11`. -/
def primaryFar : CelestialBody :=
  ⟨"f", "", { originCoordinates with r := 19 / 20 }, [1],
    JSNum.fin 1, ⟨1, 1, 1⟩, []⟩

/-- Witness for `lagrange_L2_radius_unclamped` at `r = 0.95`. -/
theorem lagrange_L2_radius_unclamped_witness :
    1 ≤ ((findLagrangePoints mZero primaryFar).getD 1 originCoordinates).r :=
  (lagrange_L2_radius_unclamped mZero primaryFar).2
    (by norm_num [primaryFar, originCoordinates])
